import Mathlib

/-!
Verification of the status-aware round-robin dispatcher of the OSS-adapter
repository: the pool dispatcher `LoadBalancer.cycle` with its two policies
(`RoundRobinLoadBalancer._get`, `MasterSlaveLoadBalancer._get`) from
`cloud_llm/common_load_balancer.py`, and the hierarchical
`RoundRobinBalancer.select` / `MultiCloudRouter.route` pair from
`llm_multi_cloud_full/balancer/load_balancer.py` and
`llm_multi_cloud_full/router.py`.

The embedding is single-threaded: every call threads its state (the
`defaultdict(int)` cursor tables) explicitly, and Python exceptions are
modelled by the `LbError` error type of an `Except` result.
-/

/-- Endpoint status, from class `LlmStatus` in `cloud_llm/common_load_balancer.py`. -/
inductive LlmStatus where
  | INACTIVE
  | ACTIVE
  deriving DecidableEq

/-- A pool entry, from class `LlmInstanceEntry`.  `entryId` models the Python object
identity `id(entry)` (distinct live objects have distinct ids); `instanceType`
models the `type` attribute of `entry.instance` as read by
`getattr(ep.instance, 'type', 0)`: `some v` when the attribute is present with
value `v`, `none` when absent (including `instance is None`). -/
structure LlmInstanceEntry where
  entryId : Nat
  instanceType : Option Nat
  status : LlmStatus
  deriving DecidableEq

/-- The errors the dispatcher code can raise, plus the spec's `EmptyPool` kind. -/
inductive LbError where
  | indexError
  | zeroDivisionError
  | keyError
  | maxIterationExceeded
  | noActiveEndpoint
  | emptyPool
  deriving DecidableEq

/- `indexError`, `zeroDivisionError`, `keyError` model the Python builtins
IndexError, ZeroDivisionError and KeyError; `maxIterationExceeded` models
RuntimeError("Exceeded maximum iteration limit for load balancing.") and
`noActiveEndpoint` models RuntimeError("Could not find an active endpoint for
balancing.").  `emptyPool` is the dedicated error kind named by the spec's
error taxonomy; it is included so that statements about it can be written,
and no definition below ever produces it. -/

/-- The `defaultdict(int)` cursor table `self._index` of a `LoadBalancer`:
a total map, missing keys read as 0. -/
abbrev IndexMap := Nat → Nat

/-- Store a value for one key of the cursor table. -/
def IndexMap.set (m : IndexMap) (k v : Nat) : IndexMap :=
  fun q => if q = k then v else m q

/-- `LoadBalancer._get_index_key(options[0])`: the cursor key of a pool is the
object identity of its first element (0 is a dummy for the empty pool, whose
key derivation is never reached because `options[0]` raises first). -/
def poolKey : List LlmInstanceEntry → Nat
  | [] => 0
  | e :: _ => e.entryId

/-- `RoundRobinLoadBalancer._get`: `options[self._index[key]]`.  The argument
`idx` is the current cursor value `self._index[key]`; `none` models IndexError. -/
def RoundRobinLoadBalancer._get (options : List LlmInstanceEntry) (idx : Nat) :
    Option LlmInstanceEntry :=
  options.get? idx

/-- `getattr(ep.instance, 'type', 0)`: the priority key used by
`MasterSlaveLoadBalancer._get`; an absent attribute defaults to 0. -/
def priorityOf (e : LlmInstanceEntry) : Nat :=
  e.instanceType.getD 0

/-- Lexicographic order by (sort key, original position) on position-tagged
entries: the ordering that characterises Python's stable `sorted(..., key=...)`. -/
def tagLe (k : LlmInstanceEntry → Nat) (p q : Nat × LlmInstanceEntry) : Prop :=
  k p.2 < k q.2 ∨ (k p.2 = k q.2 ∧ p.1 ≤ q.1)

instance (k : LlmInstanceEntry → Nat) : DecidableRel (tagLe k) := fun p q => by
  unfold tagLe
  exact inferInstance

/-- Python's `sorted(options, key=k)`: a stable ascending sort by `k`, modelled by
sorting the position-tagged list by the lexicographic (key, original position)
order - the defining characterisation of a stable sort - and dropping the tags. -/
def pySorted (k : LlmInstanceEntry → Nat) (l : List LlmInstanceEntry) :
    List LlmInstanceEntry :=
  (List.insertionSort (tagLe k) l.enum).map Prod.snd

/-- `MasterSlaveLoadBalancer._get`:
`sorted(options, key=lambda ep: getattr(ep.instance, 'type', 0))[self._index[key]]`. -/
def MasterSlaveLoadBalancer._get (options : List LlmInstanceEntry) (idx : Nat) :
    Option LlmInstanceEntry :=
  (pySorted priorityOf options).get? idx

/-- The `while` loop of `LoadBalancer.cycle`.  `fuel` is the number of loop bodies
the `count > self._max_iteration` ceiling still allows; `get` is the policy
`_get`, which receives the current cursor value `self._index[key]` (exactly the
value the Python `_get` reads from the shared table).  Per Python order, each
body fetches the candidate with the current cursor, then stores
`(cursor + 1) % len(options)`, then tests the candidate's status.  When the
guard `self._index[key] < len(options)` fails, the cursor is reset to 0 and the
no-active-endpoint error is raised.  The result carries the final cursor table. -/
def LoadBalancer.cycleLoop (get : List LlmInstanceEntry → Nat → Option LlmInstanceEntry)
    (options : List LlmInstanceEntry) (key : Nat) :
    Nat → IndexMap → Except LbError LlmInstanceEntry × IndexMap
  | 0, m =>
    if m key < options.length then (.error .maxIterationExceeded, m)
    else (.error .noActiveEndpoint, m.set key 0)
  | f + 1, m =>
    if m key < options.length then
      match get options (m key) with
      | none => (.error .indexError, m)
      | some entry =>
        let m2 := m.set key ((m key + 1) % options.length)
        if entry.status ≠ LlmStatus.INACTIVE then (.ok entry, m2)
        else LoadBalancer.cycleLoop get options key f m2
    else
      (.error .noActiveEndpoint, m.set key 0)

/-- `LoadBalancer.cycle(options)`.  On an empty pool the first line
`entry = options[0]` raises IndexError before any cursor is touched; otherwise
the cursor key is derived from the identity of `options[0]` and the skip loop
runs with at most `maxIteration` bodies (`self._max_iteration`, default 1000). -/
def LoadBalancer.cycle (get : List LlmInstanceEntry → Nat → Option LlmInstanceEntry)
    (options : List LlmInstanceEntry) (m : IndexMap) (maxIteration : Nat) :
    Except LbError LlmInstanceEntry × IndexMap :=
  match options with
  | [] => (.error .indexError, m)
  | e0 :: rest => LoadBalancer.cycleLoop get (e0 :: rest) e0.entryId maxIteration m

/-- `cycle` of a `RoundRobinLoadBalancer` (strategy "round-robin"). -/
def RoundRobinLoadBalancer.cycle (options : List LlmInstanceEntry) (m : IndexMap)
    (maxIteration : Nat) : Except LbError LlmInstanceEntry × IndexMap :=
  LoadBalancer.cycle RoundRobinLoadBalancer._get options m maxIteration

/-- `cycle` of a `MasterSlaveLoadBalancer` (strategy "master-slave"). -/
def MasterSlaveLoadBalancer.cycle (options : List LlmInstanceEntry) (m : IndexMap)
    (maxIteration : Nat) : Except LbError LlmInstanceEntry × IndexMap :=
  LoadBalancer.cycle MasterSlaveLoadBalancer._get options m maxIteration

/-- `k` successive single-threaded `cycle` calls against the same pool, threading
the cursor table and collecting every call's result in order. -/
def LoadBalancer.cycleN (get : List LlmInstanceEntry → Nat → Option LlmInstanceEntry)
    (options : List LlmInstanceEntry) (maxIteration : Nat) :
    Nat → IndexMap → List (Except LbError LlmInstanceEntry) × IndexMap
  | 0, m => ([], m)
  | k + 1, m =>
    let c := LoadBalancer.cycle get options m maxIteration
    let rest := LoadBalancer.cycleN get options maxIteration k c.2
    (c.1 :: rest.1, rest.2)

/-- The skip-loop status test `entry.status != LlmStatus.INACTIVE`, read off
position `i` of a list (`false` when the position does not exist). -/
def activeAt (l : List LlmInstanceEntry) (i : Nat) : Bool :=
  match l.get? i with
  | some e => decide (e.status ≠ LlmStatus.INACTIVE)
  | none => false

/-- State of the hierarchical `RoundRobinBalancer`
(`llm_multi_cloud_full/balancer/load_balancer.py`): a `defaultdict(int)` from
string keys to cursors. -/
structure RoundRobinBalancer where
  _index : String → Nat

/-- `RoundRobinBalancer.select(key, options)`: reads `idx = self._index[key]`,
stores `(idx + 1) % len(options)` - a ZeroDivisionError on an empty list, raised
before any store - and then evaluates `options[idx]`, an IndexError when `idx`
is out of range, raised after the store. -/
def RoundRobinBalancer.select (b : RoundRobinBalancer) (key : String)
    (options : List α) : Except LbError α × RoundRobinBalancer :=
  if options.length = 0 then (.error .zeroDivisionError, b)
  else
    let idx := b._index key
    let b2 : RoundRobinBalancer :=
      ⟨fun q => if q = key then (idx + 1) % options.length else b._index q⟩
    match options.get? idx with
    | none => (.error .indexError, b2)
    | some x => (.ok x, b2)

/-- State of `MultiCloudRouter` (`llm_multi_cloud_full/router.py`): the
insertion-ordered provider dict, the shared outer balancer, and the per-cloud
inner balancer dict built in `__init__`. -/
structure MultiCloudRouter (α : Type) where
  providers : List (String × List α)
  cloud_balancer : RoundRobinBalancer
  inner_balancers : List (String × RoundRobinBalancer)

/-- Python dict lookup `d[k]` over an insertion-ordered association list. -/
def alookup (k : String) : List (String × β) → Option β
  | [] => none
  | p :: ps => if p.1 = k then some p.2 else alookup k ps

/-- Replace the value stored at key `k` (models the in-place mutation of the
balancer object held in the dict; the dict's keys never change). -/
def aupdate (k : String) (v : β) : List (String × β) → List (String × β)
  | [] => []
  | p :: ps => if p.1 = k then (p.1, v) :: ps else p :: aupdate k v ps

/-- `MultiCloudRouter.route`, up to the routing decision: select a cloud name over
`list(self.providers.keys())` under the shared key "cloud", then select an
instance of that cloud's pool on that cloud's own inner balancer under the key
"provider".  The trailing `getattr` dispatch and backend await act on the
returned instance and are outside this core. -/
def MultiCloudRouter.route (r : MultiCloudRouter α) :
    Except LbError α × MultiCloudRouter α :=
  match r.cloud_balancer.select "cloud" (r.providers.map Prod.fst) with
  | (.error e, cb2) => (.error e, { r with cloud_balancer := cb2 })
  | (.ok cloud_name, cb2) =>
    match alookup cloud_name r.inner_balancers with
    | none => (.error .keyError, { r with cloud_balancer := cb2 })
    | some ib =>
      match alookup cloud_name r.providers with
      | none => (.error .keyError, { r with cloud_balancer := cb2 })
      | some pool =>
        match ib.select "provider" pool with
        | (ires, ib2) =>
          (ires, { r with cloud_balancer := cb2,
                          inner_balancers := aupdate cloud_name ib2 r.inner_balancers })

/-- `k` successive `route` calls, threading the router state. -/
def MultiCloudRouter.routeN : Nat → MultiCloudRouter α → List (Except LbError α) × MultiCloudRouter α
  | 0, r => ([], r)
  | k + 1, r =>
    let c := r.route
    let rest := MultiCloudRouter.routeN k c.2
    (c.1 :: rest.1, rest.2)

/-- A fresh cursor table: every key reads 0. -/
def m0 : IndexMap := fun _ => 0

/-- Three distinct all-INACTIVE entries: the C1 failing input. -/
def c1pool : List LlmInstanceEntry :=
  [⟨1, none, .INACTIVE⟩, ⟨2, none, .INACTIVE⟩, ⟨3, none, .INACTIVE⟩]

/-- A fresh hierarchical balancer. -/
def rrb0 : RoundRobinBalancer := ⟨fun _ => 0⟩

/-- C10 call sequence: two selects over a 3-element list, then one over a
1-element list, all sharing the key "k". -/
def c10step1 : Except LbError Nat × RoundRobinBalancer :=
  RoundRobinBalancer.select rrb0 "k" [10, 20, 30]

def c10step2 : Except LbError Nat × RoundRobinBalancer :=
  RoundRobinBalancer.select c10step1.2 "k" [10, 20, 30]

def c10step3 : Except LbError Nat × RoundRobinBalancer :=
  RoundRobinBalancer.select c10step2.2 "k" [99]

instance (k : LlmInstanceEntry → Nat) : IsTotal (Nat × LlmInstanceEntry) (tagLe k) :=
  ⟨by intro p q; unfold tagLe; omega⟩

instance (k : LlmInstanceEntry → Nat) : IsTrans (Nat × LlmInstanceEntry) (tagLe k) :=
  ⟨by intro p q r; unfold tagLe; omega⟩

/-- The repeated INACTIVE entry of the C2 counterexample pool. -/
def eIc2 : LlmInstanceEntry := ⟨1, none, .INACTIVE⟩

/-- The single ACTIVE entry of the C2 counterexample pool, at position 1000. -/
def eAc2 : LlmInstanceEntry := ⟨2, none, .ACTIVE⟩

/-- A pool of length 1001 whose only ACTIVE entry sits at position 1000: more
positions than the default max_iteration of 1000 allows the loop to scan. -/
def c2big : List LlmInstanceEntry := List.replicate 1000 eIc2 ++ [eAc2]

/-- A small pool with one ACTIVE and one INACTIVE entry (C2 witness input). -/
def c2wpool : List LlmInstanceEntry := [⟨1, none, .ACTIVE⟩, ⟨2, none, .INACTIVE⟩]

/-- C4 counterexample: a three-entry pool ... -/
def c4pool1 : List LlmInstanceEntry :=
  [⟨1, none, .ACTIVE⟩, ⟨2, none, .ACTIVE⟩, ⟨3, none, .ACTIVE⟩]

/-- ... and a two-entry pool sharing its first element (the object with id 1), so
both pools map to the same cursor key. -/
def c4pool2 : List LlmInstanceEntry := [⟨1, none, .ACTIVE⟩, ⟨4, none, .ACTIVE⟩]

/-- Cursor table after one `cycle` call on the three-entry pool. -/
def c4m1 : IndexMap := (RoundRobinLoadBalancer.cycle c4pool1 m0 1000).2

/-- Cursor table after two `cycle` calls on the three-entry pool. -/
def c4m2 : IndexMap := (RoundRobinLoadBalancer.cycle c4pool1 c4m1 1000).2

/-- A two-entry pool for C5: the priority-1 entry first, the priority-0 entry
(the "master") second, both ACTIVE. -/
def c5pool : List LlmInstanceEntry := [⟨1, some 1, .ACTIVE⟩, ⟨2, some 0, .ACTIVE⟩]

/-- C6 pool: entries carrying priorities [2, 0, 1], all ACTIVE. -/
def c6pool : List LlmInstanceEntry :=
  [⟨1, some 2, .ACTIVE⟩, ⟨2, some 0, .ACTIVE⟩, ⟨3, some 1, .ACTIVE⟩]

/-- The priority-0 entry of the C6 pool. -/
def c6p0 : LlmInstanceEntry := ⟨2, some 0, .ACTIVE⟩

/-- The priority-1 entry of the C6 pool. -/
def c6p1 : LlmInstanceEntry := ⟨3, some 1, .ACTIVE⟩

/-- The priority-2 entry of the C6 pool. -/
def c6p2 : LlmInstanceEntry := ⟨1, some 2, .ACTIVE⟩

/-- The expected result list of s full sweeps over the C6 pool:
priority0, priority1, priority2, repeated. -/
def c6rep : Nat → List (Except LbError LlmInstanceEntry)
  | 0 => []
  | s + 1 => .ok c6p0 :: .ok c6p1 :: .ok c6p2 :: c6rep s

/-- A two-entry pool whose only non-INACTIVE entry is at index 0 (C9 inputs). -/
def c9pool : List LlmInstanceEntry := [⟨1, none, .ACTIVE⟩, ⟨2, none, .INACTIVE⟩]

/-- The C7 router: groups A = [a1, a2] and B = [b1], fresh balancers, exactly the
state `MultiCloudRouter.__init__` builds from this provider pool. -/
def c7r0 : MultiCloudRouter String :=
  { providers := [("A", ["a1", "a2"]), ("B", ["b1"])],
    cloud_balancer := ⟨fun _ => 0⟩,
    inner_balancers := [("A", ⟨fun _ => 0⟩), ("B", ⟨fun _ => 0⟩)] }

/-- The expected results of s rounds of four `route` calls on the C7 router:
groups alternate A, B, A, B, ... and within group A the instances alternate
a1, a2, a1, ... - so each round of four reads a1, b1, a2, b1. -/
def c7rep : Nat → List (Except LbError String)
  | 0 => []
  | s + 1 => .ok "a1" :: .ok "b1" :: .ok "a2" :: .ok "b1" :: c7rep s

/-- Overwrite an entry's status flag, keeping identity and metadata. -/
def LlmInstanceEntry.withStatus (s : LlmStatus) (e : LlmInstanceEntry) : LlmInstanceEntry :=
  { e with status := s }

/-- Apply a function to every instance held in every group of a router. -/
def MultiCloudRouter.mapInstances (g : α → β) (r : MultiCloudRouter α) : MultiCloudRouter β :=
  { providers := r.providers.map (fun p => (p.1, p.2.map g)),
    cloud_balancer := r.cloud_balancer,
    inner_balancers := r.inner_balancers }

/-- A router whose single group holds a single INACTIVE endpoint (C8 input). -/
def c8entry : LlmInstanceEntry := ⟨1, none, .INACTIVE⟩

def c8router : MultiCloudRouter LlmInstanceEntry :=
  { providers := [("A", [c8entry])],
    cloud_balancer := ⟨fun _ => 0⟩,
    inner_balancers := [("A", ⟨fun _ => 0⟩)] }

/-- A router with an empty provider map (C8 witness input). -/
def c8empty : MultiCloudRouter LlmInstanceEntry :=
  { providers := [], cloud_balancer := ⟨fun _ => 0⟩, inner_balancers := [] }

/- ===================== helper lemmas ===================== -/

theorem IndexMap.apply_set_self (m : IndexMap) (k v : Nat) : m.set k v k = v := by
  simp [IndexMap.set]

theorem IndexMap.apply_set_other (m : IndexMap) (k v q : Nat) (h : q ≠ k) :
    m.set k v q = m q := by
  simp [IndexMap.set, h]

theorem IndexMap.set_set (m : IndexMap) (k v w : Nat) :
    (m.set k v).set k w = m.set k w := by
  funext q
  by_cases h : q = k <;> simp [IndexMap.set, h]

theorem IndexMap.set_eq_self (m : IndexMap) (k v : Nat) (h : m k = v) :
    m.set k v = m := by
  funext q
  by_cases hq : q = k
  · subst hq; simp [IndexMap.set, h]
  · simp [IndexMap.set, hq]

theorem exists_of_activeAt {l : List LlmInstanceEntry} {i : Nat}
    (h : activeAt l i = true) :
    ∃ e, l.get? i = some e ∧ e.status ≠ LlmStatus.INACTIVE := by
  unfold activeAt at h
  cases hg : l.get? i with
  | none => rw [hg] at h; simp at h
  | some e =>
    rw [hg] at h
    simp at h
    exact ⟨e, rfl, h⟩

theorem status_of_activeAt_false {l : List LlmInstanceEntry} {i : Nat} {e : LlmInstanceEntry}
    (h : activeAt l i = false) (he : l.get? i = some e) :
    e.status = LlmStatus.INACTIVE := by
  unfold activeAt at h
  rw [he] at h
  simpa using h

theorem activeAt_of_get? {l : List LlmInstanceEntry} {i : Nat} {e : LlmInstanceEntry}
    (he : l.get? i = some e) (hs : e.status ≠ LlmStatus.INACTIVE) :
    activeAt l i = true := by
  unfold activeAt
  rw [he]
  simpa using hs

/-- `cycle` on a non-empty pool is the loop, keyed by the first entry's identity. -/
theorem cycle_cons (get : List LlmInstanceEntry → Nat → Option LlmInstanceEntry)
    (e0 : LlmInstanceEntry) (rest : List LlmInstanceEntry) (m : IndexMap) (maxIteration : Nat) :
    LoadBalancer.cycle get (e0 :: rest) m maxIteration =
      LoadBalancer.cycleLoop get (e0 :: rest) e0.entryId maxIteration m := rfl

/-- While every scanned candidate is INACTIVE, each loop body just advances the
cursor by one modulo the pool length; after `fuel` bodies the ceiling fires with
the cursor advanced by `fuel` modulo the length.  The sweep-exhaustion branch is
never taken: an in-range cursor stays in range, so the loop guard never fails. -/
theorem cycleLoop_exhaust (get : List LlmInstanceEntry → Nat → Option LlmInstanceEntry)
    (options : List LlmInstanceEntry) (key : Nat)
    (hget : ∀ i, i < options.length → get options i = options.get? i) :
    ∀ (fuel : Nat) (m : IndexMap), m key < options.length →
      (∀ j, j < fuel → activeAt options ((m key + j) % options.length) = false) →
      LoadBalancer.cycleLoop get options key fuel m =
        (.error .maxIterationExceeded, m.set key ((m key + fuel) % options.length)) := by
  intro fuel
  induction fuel with
  | zero =>
    intro m hc _
    rw [Nat.add_zero, Nat.mod_eq_of_lt hc, IndexMap.set_eq_self m key _ rfl]
    simp [LoadBalancer.cycleLoop, hc]
  | succ f ih =>
    intro m hc hin
    have h0 : activeAt options (m key % options.length) = false := by
      have := hin 0 (Nat.succ_pos f)
      rwa [Nat.add_zero] at this
    rw [Nat.mod_eq_of_lt hc] at h0
    obtain ⟨e, he⟩ : ∃ e, options.get? (m key) = some e :=
      ⟨options.get ⟨m key, hc⟩, List.get?_eq_get hc⟩
    have hstat : e.status = LlmStatus.INACTIVE := status_of_activeAt_false h0 he
    have hn : 0 < options.length := Nat.lt_of_le_of_lt (Nat.zero_le _) hc
    have hc2 : (m.set key ((m key + 1) % options.length)) key < options.length := by
      rw [IndexMap.apply_set_self]
      exact Nat.mod_lt _ hn
    simp only [LoadBalancer.cycleLoop, if_pos hc, hget _ hc, he]
    rw [if_neg (by simp [hstat])]
    rw [ih _ hc2 ?_]
    · rw [IndexMap.set_set, IndexMap.apply_set_self, Nat.mod_add_mod,
        show m key + 1 + f = m key + (f + 1) by omega]
    · intro j hj
      rw [IndexMap.apply_set_self, Nat.mod_add_mod,
        show m key + 1 + j = m key + (j + 1) by omega]
      exact hin (j + 1) (by omega)

/-- Every entry of the C1 pool is INACTIVE, wherever the cursor points. -/
theorem c1pool_all_inactive : ∀ i, activeAt c1pool i = false := by
  intro i
  unfold activeAt
  cases hg : c1pool.get? i with
  | none => simp
  | some e =>
    have he : e ∈ c1pool := List.get?_mem hg
    have : e.status = LlmStatus.INACTIVE := by
      fin_cases he <;> rfl
    simp [this]

/-- C1: on a non-empty pool whose entries are all INACTIVE, with a fresh cursor
table and the default max_iteration of 1000, `cycle` raises the iteration-ceiling
RuntimeError - not the "Could not find an active endpoint" error - and leaves the
pool's cursor at (0 + 1000) % 3 = 1, not 0: the loop guard
`self._index[key] < len(options)` never goes false for an in-range cursor, so the
sweep-exhaustion branch that resets the cursor and raises NoActiveEndpoint is
unreachable from any in-range cursor state. -/
theorem C1_all_inactive_hits_iteration_ceiling :
    (RoundRobinLoadBalancer.cycle c1pool m0 1000).1 = .error .maxIterationExceeded ∧
    (RoundRobinLoadBalancer.cycle c1pool m0 1000).2 (poolKey c1pool) = 1 := by
  have h := cycleLoop_exhaust RoundRobinLoadBalancer._get c1pool 1
    (fun i _ => rfl) 1000 m0 (by norm_num [c1pool, m0])
    (fun j _ => c1pool_all_inactive _)
  have hc : RoundRobinLoadBalancer.cycle c1pool m0 1000 =
      LoadBalancer.cycleLoop RoundRobinLoadBalancer._get c1pool 1 1000 m0 := rfl
  rw [hc, h]
  refine ⟨rfl, ?_⟩
  show m0.set 1 ((m0 1 + 1000) % c1pool.length) 1 = 1
  rw [IndexMap.apply_set_self]
  norm_num [m0, c1pool]

/-- C3 (amended): a select on an empty pool fails immediately, without consulting
the selection policy (the result is the same for every `get`) and without
mutating any cursor, but with an unhandled Python exception - IndexError from
`options[0]` in `LoadBalancer.cycle`, ZeroDivisionError from `(idx + 1) % 0` in
`RoundRobinBalancer.select` - not with a dedicated EmptyPool error kind. -/
theorem C3_empty_pool_fails_without_policy_or_cursor :
    (∀ (get : List LlmInstanceEntry → Nat → Option LlmInstanceEntry)
      (m : IndexMap) (maxIteration : Nat),
      LoadBalancer.cycle get [] m maxIteration = (.error .indexError, m)) ∧
    (∀ (α : Type) (b : RoundRobinBalancer) (key : String),
      RoundRobinBalancer.select b key ([] : List α) = (.error .zeroDivisionError, b)) := by
  exact ⟨fun _ _ _ => rfl, fun _ _ _ => rfl⟩

/-- C3 counterexample: at the concrete empty pool, the errors actually produced
are IndexError (from `cycle`) and ZeroDivisionError (from `select`), and neither
is the dedicated EmptyPool kind the claim names. -/
theorem C3_counterexample_not_emptyPool :
    (LoadBalancer.cycle RoundRobinLoadBalancer._get [] m0 1000).1 = .error .indexError ∧
    (RoundRobinBalancer.select rrb0 "k" ([] : List Nat)).1 = .error .zeroDivisionError ∧
    LbError.indexError ≠ LbError.emptyPool ∧
    LbError.zeroDivisionError ≠ LbError.emptyPool := by
  exact ⟨rfl, rfl, by decide, by decide⟩

/-- C10: with one shared key, `select` over a 3-element options list twice drives
the stored cursor to 2, and a following `select` over a 1-element options list
performs an out-of-range index access - the unhandled Python IndexError - instead
of returning an entry or any selection-layer error. -/
theorem C10_shrinking_options_out_of_range_access :
    c10step1.1 = .ok 10 ∧ c10step2.1 = .ok 20 ∧
    c10step2.2._index "k" = 2 ∧ c10step3.1 = .error .indexError := by
  exact ⟨rfl, rfl, rfl, rfl⟩

theorem bool_eq_false {b : Bool} (h : ¬ b = true) : b = false := by
  cases b
  · rfl
  · exact absurd rfl h

/-- One `cycle` loop scans the pool from the current cursor through the policy's
view: if the first `d` scanned view positions are INACTIVE and position
`(cursor + d) % len` of the view is not, and the ceiling allows `d + 1` bodies,
the loop returns that view entry and stores cursor + d + 1 modulo the length. -/
theorem cycleLoop_view_ok (get : List LlmInstanceEntry → Nat → Option LlmInstanceEntry)
    (options view : List LlmInstanceEntry) (key : Nat)
    (hget : ∀ i, i < options.length → get options i = view.get? i)
    (hlen : view.length = options.length) :
    ∀ (d : Nat) (m : IndexMap) (fuel : Nat), m key < options.length →
      (∀ j, j < d → activeAt view ((m key + j) % options.length) = false) →
      activeAt view ((m key + d) % options.length) = true →
      d < fuel →
      ∃ e, view.get? ((m key + d) % options.length) = some e ∧
        LoadBalancer.cycleLoop get options key fuel m =
          (.ok e, m.set key ((m key + d + 1) % options.length)) := by
  intro d
  induction d with
  | zero =>
    intro m fuel hc hbefore hd hfuel
    obtain ⟨f, rfl⟩ : ∃ f, fuel = f + 1 := ⟨fuel - 1, by omega⟩
    rw [Nat.add_zero, Nat.mod_eq_of_lt hc] at hd
    obtain ⟨e, he, hstat⟩ := exists_of_activeAt hd
    refine ⟨e, ?_, ?_⟩
    · rw [Nat.add_zero, Nat.mod_eq_of_lt hc]
      exact he
    · simp only [LoadBalancer.cycleLoop, if_pos hc, hget _ hc, he]
      rw [if_pos hstat, Nat.add_zero]
  | succ dd ih =>
    intro m fuel hc hbefore hd hfuel
    obtain ⟨f, rfl⟩ : ∃ f, fuel = f + 1 := ⟨fuel - 1, by omega⟩
    have h0 : activeAt view (m key % options.length) = false := by
      have := hbefore 0 (Nat.succ_pos dd)
      rwa [Nat.add_zero] at this
    rw [Nat.mod_eq_of_lt hc] at h0
    have hcv : m key < view.length := by rw [hlen]; exact hc
    obtain ⟨e0, he0⟩ : ∃ e0, view.get? (m key) = some e0 :=
      ⟨view.get ⟨m key, hcv⟩, List.get?_eq_get hcv⟩
    have hstat0 : e0.status = LlmStatus.INACTIVE := status_of_activeAt_false h0 he0
    have hn : 0 < options.length := Nat.lt_of_le_of_lt (Nat.zero_le _) hc
    set m2 := m.set key ((m key + 1) % options.length) with hm2def
    have hm2 : m2 key = (m key + 1) % options.length := IndexMap.apply_set_self _ _ _
    have hc2 : m2 key < options.length := by
      rw [hm2]
      exact Nat.mod_lt _ hn
    have hidx : ∀ x, (m2 key + x) % options.length = (m key + (x + 1)) % options.length := by
      intro x
      rw [hm2, Nat.mod_add_mod, show m key + 1 + x = m key + (x + 1) by omega]
    obtain ⟨e, he, hrec⟩ := ih m2 f hc2
      (fun j hj => by rw [hidx j]; exact hbefore (j + 1) (by omega))
      (by rw [hidx dd]; exact hd) (by omega)
    have hfin : (m2 key + dd + 1) % options.length =
        (m key + (dd + 1) + 1) % options.length := by
      rw [hm2, Nat.add_assoc, Nat.mod_add_mod]
      congr 1
      omega
    refine ⟨e, ?_, ?_⟩
    · rw [← hidx dd]
      exact he
    · simp only [LoadBalancer.cycleLoop, if_pos hc, hget _ hc, he0]
      rw [if_neg (by simp [hstat0]), ← hm2def, hrec, hfin, hm2def, IndexMap.set_set]

/-- `cycle` on a non-empty pool, phrased through `poolKey`. -/
theorem cycle_view_ok (get : List LlmInstanceEntry → Nat → Option LlmInstanceEntry)
    (options view : List LlmInstanceEntry) (hne : options ≠ [])
    (hget : ∀ i, i < options.length → get options i = view.get? i)
    (hlen : view.length = options.length)
    (d : Nat) (m : IndexMap) (maxIteration : Nat)
    (hc : m (poolKey options) < options.length)
    (hbefore : ∀ j, j < d → activeAt view ((m (poolKey options) + j) % options.length) = false)
    (hd : activeAt view ((m (poolKey options) + d) % options.length) = true)
    (hfuel : d < maxIteration) :
    ∃ e, view.get? ((m (poolKey options) + d) % options.length) = some e ∧
      LoadBalancer.cycle get options m maxIteration =
        (.ok e, m.set (poolKey options) ((m (poolKey options) + d + 1) % options.length)) := by
  obtain ⟨e0, rest, rfl⟩ : ∃ e0 rest, options = e0 :: rest := by
    cases options with
    | nil => exact absurd rfl hne
    | cons a l => exact ⟨a, l, rfl⟩
  rw [cycle_cons]
  exact cycleLoop_view_ok get (e0 :: rest) view e0.entryId hget hlen d m maxIteration
    hc hbefore hd hfuel

/-- `cycle` on a non-empty pool when every position the ceiling lets the loop scan
is INACTIVE: the iteration-limit error fires and the cursor has advanced by
`maxIteration` modulo the pool length. -/
theorem cycle_exhaust (get : List LlmInstanceEntry → Nat → Option LlmInstanceEntry)
    (options : List LlmInstanceEntry) (hne : options ≠ [])
    (hget : ∀ i, i < options.length → get options i = options.get? i)
    (m : IndexMap) (maxIteration : Nat)
    (hc : m (poolKey options) < options.length)
    (hin : ∀ j, j < maxIteration →
      activeAt options ((m (poolKey options) + j) % options.length) = false) :
    LoadBalancer.cycle get options m maxIteration =
      (.error .maxIterationExceeded,
        m.set (poolKey options) ((m (poolKey options) + maxIteration) % options.length)) := by
  obtain ⟨e0, rest, rfl⟩ : ∃ e0 rest, options = e0 :: rest := by
    cases options with
    | nil => exact absurd rfl hne
    | cons a l => exact ⟨a, l, rfl⟩
  rw [cycle_cons]
  exact cycleLoop_exhaust get (e0 :: rest) e0.entryId hget maxIteration m hc hin

/-- For an in-range cursor and an in-range target index there is an in-range scan
offset reaching it. -/
theorem exists_offset {n c j : Nat} (hc : c < n) (hj : j < n) :
    ∃ t, t < n ∧ (c + t) % n = j := by
  by_cases h : c ≤ j
  · exact ⟨j - c, by omega, by rw [Nat.add_sub_cancel' h, Nat.mod_eq_of_lt hj]⟩
  · refine ⟨n + j - c, by omega, ?_⟩
    rw [show c + (n + j - c) = n + j by omega, Nat.add_mod_left, Nat.mod_eq_of_lt hj]

/-- The sorted view has the pool's length. -/
theorem pySorted_length (k : LlmInstanceEntry → Nat) (l : List LlmInstanceEntry) :
    (pySorted k l).length = l.length := by
  unfold pySorted
  rw [List.length_map, (List.perm_insertionSort (tagLe k) l.enum).length_eq,
    List.enum_length]

/-- A successful round-robin `cycle` call on a pool holding a non-INACTIVE entry:
it returns some non-INACTIVE entry at an in-range index and stores that index
plus one, modulo the length. -/
theorem rr_cycle_success (options : List LlmInstanceEntry) (hne : options ≠ [])
    (m : IndexMap) (maxIteration : Nat)
    (hc : m (poolKey options) < options.length)
    (hex : ∃ j, j < options.length ∧ activeAt options j = true)
    (hfuel : options.length ≤ maxIteration) :
    ∃ e i, i < options.length ∧ options.get? i = some e ∧
      e.status ≠ LlmStatus.INACTIVE ∧
      LoadBalancer.cycle RoundRobinLoadBalancer._get options m maxIteration =
        (.ok e, m.set (poolKey options) ((i + 1) % options.length)) := by
  obtain ⟨j, hj, hja⟩ := hex
  obtain ⟨t0, ht0, hct0⟩ := exists_offset hc hj
  have hEx : ∃ t, activeAt options ((m (poolKey options) + t) % options.length) = true :=
    ⟨t0, by rw [hct0]; exact hja⟩
  have hPd := Nat.find_spec hEx
  have hmin : ∀ jj, jj < Nat.find hEx →
      activeAt options ((m (poolKey options) + jj) % options.length) = false :=
    fun jj hjj => bool_eq_false (Nat.find_min hEx hjj)
  have hdn : Nat.find hEx < options.length :=
    Nat.lt_of_le_of_lt (Nat.find_min' hEx (by rw [hct0]; exact hja)) ht0
  obtain ⟨e, he, hcall⟩ := cycle_view_ok RoundRobinLoadBalancer._get options options hne
    (fun i _ => rfl) rfl (Nat.find hEx) m maxIteration hc hmin hPd (by omega)
  obtain ⟨e2, he2, hs2⟩ := exists_of_activeAt hPd
  have hee : e2 = e := by
    rw [he] at he2
    exact (Option.some.inj he2).symm
  refine ⟨e, (m (poolKey options) + Nat.find hEx) % options.length,
    Nat.mod_lt _ (by omega), he, by rw [← hee]; exact hs2, ?_⟩
  rw [hcall]
  have heq : ((m (poolKey options) + Nat.find hEx) % options.length + 1) % options.length =
      (m (poolKey options) + Nat.find hEx + 1) % options.length := Nat.mod_add_mod _ _ _
  rw [heq]

/-- Splitting a call sequence: `a + b` calls are `a` calls followed by `b` calls
from the resulting cursor table. -/
theorem cycleN_add (get : List LlmInstanceEntry → Nat → Option LlmInstanceEntry)
    (options : List LlmInstanceEntry) (maxIteration : Nat) :
    ∀ (a b : Nat) (m : IndexMap),
      LoadBalancer.cycleN get options maxIteration (a + b) m =
        ((LoadBalancer.cycleN get options maxIteration a m).1 ++
           (LoadBalancer.cycleN get options maxIteration b
             (LoadBalancer.cycleN get options maxIteration a m).2).1,
         (LoadBalancer.cycleN get options maxIteration b
           (LoadBalancer.cycleN get options maxIteration a m).2).2) := by
  intro a
  induction a with
  | zero =>
    intro b m
    simp [LoadBalancer.cycleN]
  | succ a ih =>
    intro b m
    rw [Nat.succ_add]
    simp only [LoadBalancer.cycleN]
    rw [ih]
    simp

/-- Every result of a run of round-robin `cycle` calls on a pool holding a
non-INACTIVE entry, starting from an in-range cursor, is a non-INACTIVE entry
(provided the pool fits under the iteration ceiling). -/
theorem rr_allOkN (options : List LlmInstanceEntry) (hne : options ≠ [])
    (maxIteration : Nat) (hfuel : options.length ≤ maxIteration) :
    ∀ (T : Nat) (m : IndexMap), m (poolKey options) < options.length →
      (∃ j, j < options.length ∧ activeAt options j = true) →
      ∀ r ∈ (LoadBalancer.cycleN RoundRobinLoadBalancer._get options maxIteration T m).1,
        ∃ e, r = .ok e ∧ e.status ≠ LlmStatus.INACTIVE := by
  intro T
  induction T with
  | zero =>
    intro m _ _ r hr
    simp [LoadBalancer.cycleN] at hr
  | succ T ih =>
    intro m hc hex r hr
    obtain ⟨e, i, hi, he, hs, hcall⟩ :=
      rr_cycle_success options hne m maxIteration hc hex hfuel
    simp only [LoadBalancer.cycleN] at hr
    rw [hcall] at hr
    simp only [List.mem_cons] at hr
    rcases hr with h | h
    · exact ⟨e, h, hs⟩
    · have hn : 0 < options.length := by omega
      exact ih (m.set (poolKey options) ((i + 1) % options.length))
        (by rw [IndexMap.apply_set_self]; exact Nat.mod_lt _ hn) hex r h

/-- Coverage: starting from an in-range cursor, if the view position at scan
offset `t` is non-INACTIVE, then within any `T > t` consecutive round-robin
`cycle` calls that entry is among the returned results. -/
theorem rr_coverN (options : List LlmInstanceEntry) (hne : options ≠ [])
    (maxIteration : Nat) (hfuel : options.length ≤ maxIteration) :
    ∀ (T t : Nat) (m : IndexMap), m (poolKey options) < options.length →
      activeAt options ((m (poolKey options) + t) % options.length) = true →
      t < T →
      ∃ e, options.get? ((m (poolKey options) + t) % options.length) = some e ∧
        Except.ok e ∈
          (LoadBalancer.cycleN RoundRobinLoadBalancer._get options maxIteration T m).1 := by
  intro T
  induction T with
  | zero =>
    intro t m _ _ h
    omega
  | succ T ih =>
    intro t m hc hact htT
    have hEx : ∃ x, activeAt options ((m (poolKey options) + x) % options.length) = true :=
      ⟨t, hact⟩
    have hPd := Nat.find_spec hEx
    have hdle : Nat.find hEx ≤ t := Nat.find_min' hEx hact
    have hmin : ∀ j, j < Nat.find hEx →
        activeAt options ((m (poolKey options) + j) % options.length) = false :=
      fun j hj => bool_eq_false (Nat.find_min hEx hj)
    have hn : 0 < options.length := Nat.lt_of_le_of_lt (Nat.zero_le _) hc
    obtain ⟨t2, ht2, hct2⟩ :=
      exists_offset hc (Nat.mod_lt (m (poolKey options) + Nat.find hEx) hn)
    have hfle : Nat.find hEx ≤ t2 := Nat.find_min' hEx (by rw [hct2]; exact hPd)
    obtain ⟨e1, he1, hcall⟩ := cycle_view_ok RoundRobinLoadBalancer._get options options hne
      (fun i _ => rfl) rfl (Nat.find hEx) m maxIteration hc hmin hPd
      (by omega)
    by_cases hdt : Nat.find hEx = t
    · refine ⟨e1, by rw [← hdt]; exact he1, ?_⟩
      simp only [LoadBalancer.cycleN]
      rw [hcall]
      simp
    · have hdt2 : Nat.find hEx < t := Nat.lt_of_le_of_ne hdle hdt
      set c := m (poolKey options) with hcdef
      set m2 := m.set (poolKey options) ((c + Nat.find hEx + 1) % options.length) with hm2def
      have hm2 : m2 (poolKey options) = (c + Nat.find hEx + 1) % options.length :=
        IndexMap.apply_set_self _ _ _
      have hc2 : m2 (poolKey options) < options.length := by
        rw [hm2]
        exact Nat.mod_lt _ hn
      have hidx : (m2 (poolKey options) + (t - Nat.find hEx - 1)) % options.length =
          (c + t) % options.length := by
        rw [hm2, Nat.mod_add_mod]
        congr 1
        omega
      obtain ⟨e, he, hmem⟩ := ih (t - Nat.find hEx - 1) m2 hc2 (by rw [hidx]; exact hact)
        (by omega)
      refine ⟨e, by rw [hidx] at he; exact he, ?_⟩
      simp only [LoadBalancer.cycleN]
      rw [hcall]
      simp only [List.mem_cons]
      right
      exact hmem

/-- C2 (amended): for every non-empty pool holding at least one non-INACTIVE
entry, whose length fits under the iteration ceiling, and for every in-range
starting cursor, a sequence of `len(pool)` consecutive round-robin `cycle` calls
(a) only returns non-INACTIVE entries and (b) returns every non-INACTIVE entry
of the pool at least once.  (For pools longer than max_iteration the first call
can instead raise the iteration-ceiling error - see the counterexample.) -/
theorem C2_round_robin_coverage (options : List LlmInstanceEntry) (m : IndexMap)
    (maxIteration : Nat) (hne : options ≠ [])
    (hex : ∃ j, j < options.length ∧ activeAt options j = true)
    (hc : m (poolKey options) < options.length)
    (hfuel : options.length ≤ maxIteration) :
    (∀ r ∈ (LoadBalancer.cycleN RoundRobinLoadBalancer._get options maxIteration
        options.length m).1,
      ∃ e, r = .ok e ∧ e.status ≠ LlmStatus.INACTIVE) ∧
    (∀ j, j < options.length → activeAt options j = true →
      ∃ e, options.get? j = some e ∧
        Except.ok e ∈ (LoadBalancer.cycleN RoundRobinLoadBalancer._get options maxIteration
          options.length m).1) := by
  constructor
  · exact rr_allOkN options hne maxIteration hfuel options.length m hc hex
  · intro j hj hja
    obtain ⟨t, ht, hct⟩ := exists_offset hc hj
    obtain ⟨e, he, hmem⟩ := rr_coverN options hne maxIteration hfuel options.length t m hc
      (by rw [hct]; exact hja) ht
    exact ⟨e, by rw [hct] at he; exact he, hmem⟩

/-- C2 witness: the two-entry pool with one ACTIVE entry satisfies every
hypothesis of the coverage theorem, which then applies at it. -/
theorem C2_witness :
    (c2wpool ≠ [] ∧ (∃ j, j < c2wpool.length ∧ activeAt c2wpool j = true) ∧
      m0 (poolKey c2wpool) < c2wpool.length ∧ c2wpool.length ≤ 1000) ∧
    ((∀ r ∈ (LoadBalancer.cycleN RoundRobinLoadBalancer._get c2wpool 1000
        c2wpool.length m0).1,
      ∃ e, r = .ok e ∧ e.status ≠ LlmStatus.INACTIVE) ∧
    (∀ j, j < c2wpool.length → activeAt c2wpool j = true →
      ∃ e, c2wpool.get? j = some e ∧
        Except.ok e ∈ (LoadBalancer.cycleN RoundRobinLoadBalancer._get c2wpool 1000
          c2wpool.length m0).1)) :=
  ⟨⟨by decide, ⟨0, by decide, by decide⟩, by decide, by decide⟩,
    C2_round_robin_coverage c2wpool m0 1000 (by decide) ⟨0, by decide, by decide⟩
      (by decide) (by decide)⟩

theorem activeAt_false_of_get? {l : List LlmInstanceEntry} {i : Nat} {e : LlmInstanceEntry}
    (he : l.get? i = some e) (hs : e.status = LlmStatus.INACTIVE) :
    activeAt l i = false := by
  unfold activeAt
  rw [he]
  simp [hs]

/-- Every one of the first 1000 positions of the long pool is INACTIVE. -/
theorem c2big_inactive_lt : ∀ j, j < 1000 → activeAt c2big j = false := by
  intro j hj
  have hg : c2big.get? j = some eIc2 := by
    rw [c2big, List.get?_append (by rw [List.length_replicate]; exact hj),
      List.get?_eq_get (by rw [List.length_replicate]; exact hj)]
    exact congrArg some (List.get_replicate _ _)
  exact activeAt_false_of_get? hg rfl

theorem c2big_len : c2big.length = 1001 := by
  rw [c2big, List.length_append, List.length_replicate]
  rfl

theorem c2big_get_1000 : c2big.get? 1000 = some eAc2 := by
  rw [c2big, List.get?_append_right (by rw [List.length_replicate])]
  rw [List.length_replicate]
  norm_num

/-- C2 counterexample: a pool of length 1001 with exactly one ACTIVE entry (at
position 1000), a fresh in-range cursor and the default max_iteration of 1000
satisfies every premise of the claim, yet the first of the `len(pool)` `select`
calls raises the iteration-ceiling RuntimeError instead of returning a
non-INACTIVE entry, so neither part of the claimed property holds. -/
theorem C2_counterexample_pool_longer_than_ceiling :
    c2big ≠ [] ∧ c2big.length = 1001 ∧
    (∃ j, j < c2big.length ∧ activeAt c2big j = true) ∧
    m0 (poolKey c2big) < c2big.length ∧
    (RoundRobinLoadBalancer.cycle c2big m0 1000).1 = .error .maxIterationExceeded := by
  have hne : c2big ≠ [] := by
    intro h0
    have := c2big_len
    rw [h0] at this
    simp at this
  have hex : ∃ j, j < c2big.length ∧ activeAt c2big j = true :=
    ⟨1000, by rw [c2big_len]; norm_num, activeAt_of_get? c2big_get_1000 (by decide)⟩
  have hc : m0 (poolKey c2big) < c2big.length := by
    show (0 : Nat) < c2big.length
    rw [c2big_len]
    norm_num
  have hin : ∀ j, j < 1000 →
      activeAt c2big ((m0 (poolKey c2big) + j) % c2big.length) = false := by
    intro j hj
    have hidx : (m0 (poolKey c2big) + j) % c2big.length = j := by
      show (0 + j) % c2big.length = j
      rw [Nat.zero_add, c2big_len, Nat.mod_eq_of_lt (by omega)]
    rw [hidx]
    exact c2big_inactive_lt j hj
  have hexh := cycle_exhaust RoundRobinLoadBalancer._get c2big hne (fun i _ => rfl)
    m0 1000 hc hin
  refine ⟨hne, c2big_len, hex, hc, ?_⟩
  show (LoadBalancer.cycle RoundRobinLoadBalancer._get c2big m0 1000).1 =
    .error .maxIterationExceeded
  rw [hexh]

/-- The loop leaves the pool's cursor strictly below the pool length, whatever
the policy, fuel and starting table (the guard hands an in-range cursor to every
branch, the modulo update keeps it in range, and the reset branch stores 0). -/
theorem cycleLoop_key_lt (get : List LlmInstanceEntry → Nat → Option LlmInstanceEntry)
    (options : List LlmInstanceEntry) (key : Nat) (hn : 0 < options.length) :
    ∀ (fuel : Nat) (m : IndexMap),
      ((LoadBalancer.cycleLoop get options key fuel m).2) key < options.length := by
  intro fuel
  induction fuel with
  | zero =>
    intro m
    by_cases hg : m key < options.length
    · simp only [LoadBalancer.cycleLoop]
      rw [if_pos hg]
      exact hg
    · simp only [LoadBalancer.cycleLoop]
      rw [if_neg hg]
      show (m.set key 0) key < options.length
      rw [IndexMap.apply_set_self]
      exact hn
  | succ f ih =>
    intro m
    by_cases hg : m key < options.length
    · cases hget : get options (m key) with
      | none =>
        simp only [LoadBalancer.cycleLoop, if_pos hg, hget]
        exact hg
      | some entry =>
        by_cases hs : entry.status ≠ LlmStatus.INACTIVE
        · simp only [LoadBalancer.cycleLoop, if_pos hg, hget, if_pos hs]
          show (m.set key ((m key + 1) % options.length)) key < options.length
          rw [IndexMap.apply_set_self]
          exact Nat.mod_lt _ hn
        · simp only [LoadBalancer.cycleLoop, if_pos hg, hget, if_neg hs]
          exact ih _
    · simp only [LoadBalancer.cycleLoop]
      rw [if_neg hg]
      show (m.set key 0) key < options.length
      rw [IndexMap.apply_set_self]
      exact hn

/-- One `cycle` call on a non-empty pool leaves that pool's cursor in range. -/
theorem cycle_key_lt (get : List LlmInstanceEntry → Nat → Option LlmInstanceEntry)
    (options : List LlmInstanceEntry) (hne : options ≠ [])
    (m : IndexMap) (maxIteration : Nat) :
    ((LoadBalancer.cycle get options m maxIteration).2) (poolKey options) < options.length := by
  obtain ⟨e0, rest, rfl⟩ : ∃ e0 rest, options = e0 :: rest := by
    cases options with
    | nil => exact absurd rfl hne
    | cons a l => exact ⟨a, l, rfl⟩
  rw [cycle_cons]
  exact cycleLoop_key_lt get (e0 :: rest) e0.entryId (by simp) maxIteration m

/-- C4 (amended): for call sequences that keep re-using one pool - so the cursor
key always resolves to the same pool length - the invariant
`0 <= cursor[poolIdentity] < len(pool)` holds after every `cycle` call (and hence
before every later one), for either policy and any statuses, whenever it holds
initially.  Interleaving a second pool that shares its first element breaks the
invariant - see the counterexample. -/
theorem C4_cursor_invariant_single_pool
    (get : List LlmInstanceEntry → Nat → Option LlmInstanceEntry)
    (options : List LlmInstanceEntry) (hne : options ≠ []) (maxIteration : Nat) :
    ∀ (k : Nat) (m : IndexMap), m (poolKey options) < options.length →
      (LoadBalancer.cycleN get options maxIteration k m).2 (poolKey options) <
        options.length := by
  intro k
  induction k with
  | zero =>
    intro m hc
    exact hc
  | succ k ih =>
    intro m hc
    simp only [LoadBalancer.cycleN]
    exact ih _ (cycle_key_lt get options hne m maxIteration)

/-- C4 witness: five round-robin calls on a two-entry pool keep the cursor in
range. -/
theorem C4_witness :
    (c2wpool ≠ [] ∧ m0 (poolKey c2wpool) < c2wpool.length) ∧
    (LoadBalancer.cycleN RoundRobinLoadBalancer._get c2wpool 1000 5 m0).2
      (poolKey c2wpool) < c2wpool.length :=
  ⟨⟨by decide, by decide⟩,
    C4_cursor_invariant_single_pool RoundRobinLoadBalancer._get c2wpool (by decide)
      1000 5 m0 (by decide)⟩

/-- C4 counterexample: two `cycle` calls on the three-entry pool drive the shared
cursor to 2; the two-entry pool has the same first element, hence the same
cursor key, so before its `select` call the stored cursor is 2, violating
`cursor < len(pool)` - and the call then fails with NoActiveEndpoint although
the pool holds ACTIVE entries. -/
theorem C4_counterexample_aliased_pools :
    poolKey c4pool1 = poolKey c4pool2 ∧
    c4pool1 ≠ c4pool2 ∧
    c4m2 (poolKey c4pool2) = 2 ∧
    c4pool2.length = 2 ∧
    ¬ (c4m2 (poolKey c4pool2) < c4pool2.length) ∧
    (∃ j, j < c4pool2.length ∧ activeAt c4pool2 j = true) ∧
    (RoundRobinLoadBalancer.cycle c4pool2 c4m2 1000).1 = .error .noActiveEndpoint := by
  refine ⟨rfl, by decide, rfl, rfl, by decide, ⟨0, by decide, rfl⟩, rfl⟩

/-- C5 (amended): Priority Ordered selection round-robins over the stable
priority-sorted view.  A call whose first non-INACTIVE sorted position, scanning
from the current cursor, is at offset `d`, returns that sorted entry and stores
cursor + d + 1 modulo the length: a sweep starting at cursor 0 attempts entries
in ascending priority order and returns the lowest-priority non-INACTIVE entry,
but the cursor then points past it, so the next call continues at the following
sorted position instead of returning the still-ACTIVE lowest-priority entry
again (see the counterexample). -/
theorem C5_priority_ordered_cycles_sorted_view (options : List LlmInstanceEntry)
    (m : IndexMap) (maxIteration d : Nat) (hne : options ≠ [])
    (hc : m (poolKey options) < options.length)
    (hbefore : ∀ j, j < d →
      activeAt (pySorted priorityOf options)
        ((m (poolKey options) + j) % options.length) = false)
    (hd : activeAt (pySorted priorityOf options)
      ((m (poolKey options) + d) % options.length) = true)
    (hfuel : d < maxIteration) :
    ∃ e, (pySorted priorityOf options).get?
        ((m (poolKey options) + d) % options.length) = some e ∧
      MasterSlaveLoadBalancer.cycle options m maxIteration =
        (.ok e, m.set (poolKey options)
          ((m (poolKey options) + d + 1) % options.length)) :=
  cycle_view_ok MasterSlaveLoadBalancer._get options (pySorted priorityOf options) hne
    (fun i _ => rfl) (pySorted_length _ _) d m maxIteration hc hbefore hd hfuel

/-- C5 witness: on the pool [priority 1, priority 0], both ACTIVE, with cursor 0,
the theorem applies with offset 0 and the call returns the priority-0 entry. -/
theorem C5_witness :
    (m0 (poolKey c5pool) < c5pool.length ∧
      activeAt (pySorted priorityOf c5pool)
        ((m0 (poolKey c5pool) + 0) % c5pool.length) = true) ∧
    (∃ e, (pySorted priorityOf c5pool).get?
        ((m0 (poolKey c5pool) + 0) % c5pool.length) = some e ∧
      MasterSlaveLoadBalancer.cycle c5pool m0 1000 =
        (.ok e, m0.set (poolKey c5pool)
          ((m0 (poolKey c5pool) + 0 + 1) % c5pool.length))) :=
  ⟨⟨by decide, by decide⟩,
    C5_priority_ordered_cycles_sorted_view c5pool m0 1000 0 (by decide) (by decide)
      (fun j hj => absurd hj (by omega)) (by decide) (by decide)⟩

/-- C5 counterexample: both entries stay ACTIVE, the lowest-priority entry is the
one with priority 0, yet the two successive Priority Ordered `cycle` calls
return first the priority-0 entry and then the priority-1 entry - the second
call does not return the still-ACTIVE lowest-priority-number entry. -/
theorem C5_counterexample_master_not_sticky :
    priorityOf ⟨2, some 0, .ACTIVE⟩ = 0 ∧ priorityOf ⟨1, some 1, .ACTIVE⟩ = 1 ∧
    (LoadBalancer.cycleN MasterSlaveLoadBalancer._get c5pool 1000 2 m0).1 =
      [.ok ⟨2, some 0, .ACTIVE⟩, .ok ⟨1, some 1, .ACTIVE⟩] := by
  exact ⟨rfl, rfl, rfl⟩

/-- The only `s` in the window `r + 1 <= s <= r + n` with `s % n = r` is `r + n`. -/
theorem mod_window {n r s : Nat} (hn : 0 < n) (hs : s % n = r) (h1 : r + 1 ≤ s)
    (h2 : s ≤ r + n) : s = r + n := by
  obtain ⟨q, hq⟩ : ∃ q, s = n * q + r :=
    ⟨s / n, by rw [← hs]; exact (Nat.div_add_mod s n).symm⟩
  obtain hq0 | hq1 | hq2 : q = 0 ∨ q = 1 ∨ 2 ≤ q := by omega
  · subst hq0
    rw [Nat.mul_zero] at hq
    omega
  · subst hq1
    rw [Nat.mul_one] at hq
    omega
  · have hbig : n * 2 ≤ n * q := Nat.mul_le_mul_left n hq2
    omega

/-- Inversion of a successful round-robin `cycle` call: the returned entry sits at
the first non-INACTIVE position scanning from the cursor, and the stored cursor
points just past it. -/
theorem rr_cycle_ok_inv (options : List LlmInstanceEntry) (hne : options ≠ [])
    (m : IndexMap) (maxIteration : Nat) (e : LlmInstanceEntry) (mOut : IndexMap)
    (hc : m (poolKey options) < options.length)
    (h : LoadBalancer.cycle RoundRobinLoadBalancer._get options m maxIteration =
      (.ok e, mOut)) :
    ∃ d, d < options.length ∧
      (∀ j, j < d → activeAt options ((m (poolKey options) + j) % options.length) = false) ∧
      activeAt options ((m (poolKey options) + d) % options.length) = true ∧
      options.get? ((m (poolKey options) + d) % options.length) = some e ∧
      mOut = m.set (poolKey options) ((m (poolKey options) + d + 1) % options.length) := by
  have hn : 0 < options.length := Nat.lt_of_le_of_lt (Nat.zero_le _) hc
  by_cases hEx : ∃ x, activeAt options ((m (poolKey options) + x) % options.length) = true
  · have hPd := Nat.find_spec hEx
    have hmin : ∀ j, j < Nat.find hEx →
        activeAt options ((m (poolKey options) + j) % options.length) = false :=
      fun j hj => bool_eq_false (Nat.find_min hEx hj)
    obtain ⟨t2, ht2, hct2⟩ := exists_offset hc
      (show (m (poolKey options) + Nat.find hEx) % options.length < options.length from
        Nat.mod_lt _ hn)
    have hfle : Nat.find hEx ≤ t2 := Nat.find_min' hEx (by rw [hct2]; exact hPd)
    by_cases hdf : Nat.find hEx < maxIteration
    · obtain ⟨e1, he1, hcall⟩ := cycle_view_ok RoundRobinLoadBalancer._get options options
        hne (fun i _ => rfl) rfl (Nat.find hEx) m maxIteration hc hmin hPd hdf
      rw [h] at hcall
      have h1 : Except.ok (ε := LbError) e = Except.ok e1 := congrArg Prod.fst hcall
      have h2 := congrArg Prod.snd hcall
      obtain rfl : e1 = e := (Except.ok.inj h1).symm
      exact ⟨Nat.find hEx, by omega, hmin, hPd, he1, h2⟩
    · exfalso
      push_neg at hdf
      have hexh := cycle_exhaust RoundRobinLoadBalancer._get options hne (fun i _ => rfl)
        m maxIteration hc (fun j hj => hmin j (by omega))
      rw [h] at hexh
      exact Except.noConfusion (congrArg Prod.fst hexh)
  · exfalso
    push_neg at hEx
    have hexh := cycle_exhaust RoundRobinLoadBalancer._get options hne (fun i _ => rfl)
      m maxIteration hc (fun j _ => bool_eq_false (hEx j))
    rw [h] at hexh
    exact Except.noConfusion (congrArg Prod.fst hexh)

/-- C9 (amended): two sequential round-robin `cycle` calls against the same pool
(no duplicate entries, length > 1, in-range cursor) return the same entry - and
hence the same pool index - twice in a row exactly when that entry is the only
non-INACTIVE entry of the pool: every other index is INACTIVE.  With some other
entry non-INACTIVE, an immediate repeat is impossible; with `len(pool) == 1` or
a sole surviving ACTIVE entry it does occur (see the counterexample). -/
theorem C9_immediate_repeat_only_for_sole_active (options : List LlmInstanceEntry)
    (m m2 m3 : IndexMap) (maxIteration : Nat) (e e2 : LlmInstanceEntry)
    (hnodup : options.Nodup) (hn1 : 1 < options.length)
    (hc : m (poolKey options) < options.length)
    (h1 : LoadBalancer.cycle RoundRobinLoadBalancer._get options m maxIteration =
      (.ok e, m2))
    (h2 : LoadBalancer.cycle RoundRobinLoadBalancer._get options m2 maxIteration =
      (.ok e2, m3))
    (heq : e2 = e) :
    ∀ j, (hj : j < options.length) → options.get ⟨j, hj⟩ ≠ e →
      (options.get ⟨j, hj⟩).status = LlmStatus.INACTIVE := by
  have hn : 0 < options.length := by omega
  have hne : options ≠ [] := by
    intro h0
    rw [h0] at hn1
    simp at hn1
  obtain ⟨d1, hd1n, hmin1, hact1, hget1, hm2⟩ :=
    rr_cycle_ok_inv options hne m maxIteration e m2 hc h1
  have hrn : (m (poolKey options) + d1) % options.length < options.length :=
    Nat.mod_lt _ hn
  have hm2k : m2 (poolKey options) =
      (m (poolKey options) + d1 + 1) % options.length := by
    rw [hm2, IndexMap.apply_set_self]
  have hc2 : m2 (poolKey options) < options.length := by
    rw [hm2k]
    exact Nat.mod_lt _ hn
  obtain ⟨d2, hd2n, hmin2, hact2, hget2, hm3⟩ :=
    rr_cycle_ok_inv options hne m2 maxIteration e2 m3 hc2 h2
  have hidx2 : (m2 (poolKey options) + d2) % options.length =
      (m (poolKey options) + d1) % options.length := by
    apply List.get?_inj (Nat.mod_lt _ hn) hnodup
    rw [hget2, hget1, heq]
  have hstep : (m2 (poolKey options) + d2) % options.length =
      ((m (poolKey options) + d1) % options.length + (1 + d2)) % options.length := by
    rw [hm2k, Nat.mod_add_mod, Nat.mod_add_mod]
    congr 1
    omega
  have hwin := mod_window hn
    (s := (m (poolKey options) + d1) % options.length + (1 + d2))
    (r := (m (poolKey options) + d1) % options.length)
    (by rw [← hstep]; exact hidx2) (by omega) (by omega)
  have hd2 : d2 = options.length - 1 := by omega
  intro j hj hjne
  have hjr : j ≠ (m (poolKey options) + d1) % options.length := by
    intro hj0
    apply hjne
    have hsome := hget1
    rw [List.get?_eq_get hrn] at hsome
    have : options.get ⟨(m (poolKey options) + d1) % options.length, hrn⟩ = e :=
      Option.some.inj hsome
    rw [← this]
    congr 1
    exact Fin.ext hj0
  obtain ⟨t, htn, hct⟩ := exists_offset hc2 hj
  have htn1 : t ≠ options.length - 1 := by
    intro h0
    apply hjr
    rw [← hct, h0, hm2k, Nat.mod_add_mod,
      show m (poolKey options) + d1 + 1 + (options.length - 1) =
        m (poolKey options) + d1 + options.length by omega,
      Nat.add_mod_right]
  by_contra hstat
  have hja : activeAt options j = true :=
    activeAt_of_get? (List.get?_eq_get hj) hstat
  have hfalse := hmin2 t (by omega)
  rw [hct, hja] at hfalse
  exact absurd hfalse (by decide)

/-- C9 witness: on the pool [ACTIVE, INACTIVE] (no duplicates, length 2, fresh
cursor), both sequential calls return the ACTIVE entry, and the theorem then
forces every other index to be INACTIVE. -/
theorem C9_witness :
    (c9pool.Nodup ∧ 1 < c9pool.length ∧ m0 (poolKey c9pool) < c9pool.length) ∧
    (∀ j, (hj : j < c9pool.length) → c9pool.get ⟨j, hj⟩ ≠ ⟨1, none, .ACTIVE⟩ →
      (c9pool.get ⟨j, hj⟩).status = LlmStatus.INACTIVE) :=
  ⟨⟨by decide, by decide, by decide⟩,
    C9_immediate_repeat_only_for_sole_active c9pool m0
      (LoadBalancer.cycle RoundRobinLoadBalancer._get c9pool m0 1000).2
      (LoadBalancer.cycle RoundRobinLoadBalancer._get c9pool
        (LoadBalancer.cycle RoundRobinLoadBalancer._get c9pool m0 1000).2 1000).2
      1000 ⟨1, none, .ACTIVE⟩ ⟨1, none, .ACTIVE⟩
      (by decide) (by decide) (by decide) rfl rfl rfl⟩

/-- C9 counterexample: a pool of length 2 (distinct entries) where two sequential
`select` calls return the entry at index 0 twice in a row, because the other
entry is INACTIVE - the claimed "never unless len(pool) == 1" is false. -/
theorem C9_counterexample_same_index_twice :
    c9pool.Nodup ∧ c9pool.length = 2 ∧
    c9pool.get? 0 = some ⟨1, none, .ACTIVE⟩ ∧
    (LoadBalancer.cycleN RoundRobinLoadBalancer._get c9pool 1000 2 m0).1 =
      [.ok ⟨1, none, .ACTIVE⟩, .ok ⟨1, none, .ACTIVE⟩] := by
  exact ⟨by decide, rfl, rfl, rfl⟩

/-- One full Priority Ordered sweep over the C6 pool returns the entries in
ascending priority order and brings the cursor table back to its start. -/
theorem c6_sweep :
    LoadBalancer.cycleN MasterSlaveLoadBalancer._get c6pool 1000 3 m0 =
      ([.ok c6p0, .ok c6p1, .ok c6p2], m0) := by
  have h1 : (LoadBalancer.cycleN MasterSlaveLoadBalancer._get c6pool 1000 3 m0).1 =
      [.ok c6p0, .ok c6p1, .ok c6p2] := rfl
  have h2 : (LoadBalancer.cycleN MasterSlaveLoadBalancer._get c6pool 1000 3 m0).2 = m0 := by
    funext q
    show ((m0.set 1 1).set 1 2).set 1 0 q = m0 q
    by_cases hq : q = 1
    · subst hq
      rfl
    · simp [IndexMap.set, hq, m0]
  exact Prod.ext h1 h2

/-- C6: (a) on the pool with priorities [2, 0, 1], all ACTIVE, every successive
sweep of three Priority Ordered `cycle` calls returns priority0, priority1,
priority2 in that order; (b) the sorted view is ascending in the priority key;
(c) it is a permutation of the pool; (d) the sort is stable: on the
position-tagged list the sorted order is strictly lexicographic in
(priority, original position), so equal priorities keep their original relative
order; (e) an absent priority attribute is read as priority 0. -/
theorem C6_priority_sweep_order_and_stable_sort :
    (∀ s, (LoadBalancer.cycleN MasterSlaveLoadBalancer._get c6pool 1000 (3 * s) m0).1 =
      c6rep s) ∧
    (∀ (l : List LlmInstanceEntry),
      List.Pairwise (fun a b => priorityOf a ≤ priorityOf b) (pySorted priorityOf l)) ∧
    (∀ (l : List LlmInstanceEntry), (pySorted priorityOf l).Perm l) ∧
    (∀ (l : List LlmInstanceEntry),
      List.Pairwise (fun p q => priorityOf p.2 < priorityOf q.2 ∨
        (priorityOf p.2 = priorityOf q.2 ∧ p.1 < q.1))
      (List.insertionSort (tagLe priorityOf) l.enum)) ∧
    (∀ i s0, priorityOf ⟨i, none, s0⟩ = 0) := by
  refine ⟨?_, ?_, ?_, ?_, fun i s0 => rfl⟩
  · intro s
    induction s with
    | zero => rfl
    | succ s ih =>
      have h3 : 3 * (s + 1) = 3 + 3 * s := by ring
      rw [h3, cycleN_add, c6_sweep]
      show .ok c6p0 :: .ok c6p1 :: .ok c6p2 :: ([] ++
        (LoadBalancer.cycleN MasterSlaveLoadBalancer._get c6pool 1000 (3 * s) m0).1) =
        c6rep (s + 1)
      rw [List.nil_append, ih]
      rfl
  · intro l
    have hs := List.sorted_insertionSort (tagLe priorityOf) l.enum
    unfold pySorted
    exact List.Pairwise.map Prod.snd
      (fun a b hab => by unfold tagLe at hab; omega) hs
  · intro l
    have hp := (List.perm_insertionSort (tagLe priorityOf) l.enum).map Prod.snd
    rw [List.enum_map_snd] at hp
    exact hp
  · intro l
    have hs := List.sorted_insertionSort (tagLe priorityOf) l.enum
    have hperm := List.perm_insertionSort (tagLe priorityOf) l.enum
    have hfst : List.Pairwise (fun p q : Nat × LlmInstanceEntry => p.1 ≠ q.1)
        (List.insertionSort (tagLe priorityOf) l.enum) := by
      have hmap : List.Perm ((List.insertionSort (tagLe priorityOf) l.enum).map Prod.fst)
          (l.enum.map Prod.fst) := hperm.map Prod.fst
      rw [List.enum_map_fst] at hmap
      have hnodup : ((List.insertionSort (tagLe priorityOf) l.enum).map Prod.fst).Nodup :=
        hmap.nodup_iff.mpr (List.nodup_range _)
      rw [List.Nodup, List.pairwise_map] at hnodup
      exact hnodup
    exact (List.Pairwise.and hs hfst).imp
      (fun hab => by obtain ⟨h1, h2⟩ := hab; unfold tagLe at h1; omega)

/-- Splitting a `route` call sequence. -/
theorem routeN_add {α : Type} :
    ∀ (a b : Nat) (r : MultiCloudRouter α),
      MultiCloudRouter.routeN (a + b) r =
        ((MultiCloudRouter.routeN a r).1 ++
           (MultiCloudRouter.routeN b (MultiCloudRouter.routeN a r).2).1,
         (MultiCloudRouter.routeN b (MultiCloudRouter.routeN a r).2).2) := by
  intro a
  induction a with
  | zero =>
    intro b r
    simp [MultiCloudRouter.routeN]
  | succ a ih =>
    intro b r
    rw [Nat.succ_add]
    simp only [MultiCloudRouter.routeN]
    rw [ih]
    simp

/-- One round of four `route` calls on the C7 router returns a1, b1, a2, b1 and
restores the initial router state (every cursor back where it started). -/
theorem c7_four :
    MultiCloudRouter.routeN 4 c7r0 =
      ([.ok "a1", .ok "b1", .ok "a2", .ok "b1"], c7r0) := by
  have h1 : (MultiCloudRouter.routeN 4 c7r0).1 =
      [.ok "a1", .ok "b1", .ok "a2", .ok "b1"] := rfl
  have h2 : (MultiCloudRouter.routeN 4 c7r0).2 = c7r0 := by
    show ({ providers := [("A", ["a1", "a2"]), ("B", ["b1"])],
            cloud_balancer := ⟨fun q => if q = "cloud" then 0 else
              if q = "cloud" then 1 else if q = "cloud" then 0 else
              if q = "cloud" then 1 else 0⟩,
            inner_balancers := [("A", ⟨fun q => if q = "provider" then 0 else
                if q = "provider" then 1 else 0⟩),
              ("B", ⟨fun q => if q = "provider" then 0 else
                if q = "provider" then 0 else 0⟩)] } : MultiCloudRouter String) = c7r0
    have hcloud : (fun q => if q = "cloud" then 0 else
        if q = "cloud" then 1 else if q = "cloud" then 0 else
        if q = "cloud" then 1 else 0) = (fun _ : String => (0 : Nat)) := by
      funext q
      by_cases hq : q = "cloud" <;> simp [hq]
    have hA : (fun q => if q = "provider" then 0 else
        if q = "provider" then 1 else 0) = (fun _ : String => (0 : Nat)) := by
      funext q
      by_cases hq : q = "provider" <;> simp [hq]
    have hB : (fun q => if q = "provider" then 0 else
        if q = "provider" then 0 else 0) = (fun _ : String => (0 : Nat)) := by
      funext q
      by_cases hq : q = "provider" <;> simp [hq]
    rw [hcloud, hA, hB]
    rfl
  exact Prod.ext h1 h2

/-- Every round of four `route` calls repeats the a1, b1, a2, b1 pattern from the
restored initial state. -/
theorem c7_periodN :
    ∀ s, MultiCloudRouter.routeN (4 * s) c7r0 = (c7rep s, c7r0) := by
  intro s
  induction s with
  | zero => rfl
  | succ s ih =>
    have h4 : 4 * (s + 1) = 4 + 4 * s := by ring
    rw [h4, routeN_add, c7_four]
    show (.ok "a1" :: .ok "b1" :: .ok "a2" :: .ok "b1" :: ([] ++
        (MultiCloudRouter.routeN (4 * s) c7r0).1),
      (MultiCloudRouter.routeN (4 * s) c7r0).2) = (c7rep (s + 1), c7r0)
    rw [List.nil_append, ih]
    rfl

/-- Keys other than the updated one keep their association. -/
theorem alookup_aupdate_other {β : Type} (k k2 : String) (v : β) (h : k ≠ k2) :
    ∀ l : List (String × β), alookup k (aupdate k2 v l) = alookup k l := by
  intro l
  induction l with
  | nil => rfl
  | cons p ps ih =>
    have hk2 : ¬ (k2 = k) := fun hh => h hh.symm
    by_cases hp : p.1 = k2
    · have hpk : ¬ (p.1 = k) := fun hh => h (hh.symm.trans hp)
      simp [aupdate, alookup, hp, hpk, hk2]
    · by_cases hk : p.1 = k
      · simp [aupdate, alookup, hp, hk, h]
      · simp [aupdate, alookup, hp, hk, ih]

/-- A `route` call only touches the inner balancer of the group it selects:
when the outer selection does not pick group `g`, group g's inner balancer - and
hence its cursor - is unchanged. -/
theorem route_preserves_other_inner {α : Type} (r : MultiCloudRouter α) (g : String)
    (hg : ∀ x, (r.cloud_balancer.select "cloud" (r.providers.map Prod.fst)).1 = .ok x →
      x ≠ g) :
    alookup g ((r.route).2.inner_balancers) = alookup g r.inner_balancers := by
  rcases hsel : r.cloud_balancer.select "cloud" (r.providers.map Prod.fst) with ⟨res, cb2⟩
  unfold MultiCloudRouter.route
  rw [hsel]
  cases res with
  | error e => rfl
  | ok cloud_name =>
    have hne : cloud_name ≠ g := hg cloud_name (by rw [hsel])
    dsimp only
    cases hib : alookup cloud_name r.inner_balancers with
    | none => rfl
    | some ib =>
      dsimp only
      cases hpool : alookup cloud_name r.providers with
      | none => rfl
      | some pool =>
        exact alookup_aupdate_other g cloud_name (ib.select "provider" pool).2
          (fun hh => hne hh.symm) r.inner_balancers

/-- C7: on the router with groups A = [a1, a2] and B = [b1], (a) every round of
four `route` calls returns a1, b1, a2, b1 - groups alternate A, B, A, B, ... and
within group A the instance alternates a1, a2, a1, ... - and restores the router
state, so (b) the result list of 4s + r calls is s repetitions of that pattern
followed by the first r entries of the next one; and (c) a `route` call never
touches the inner balancer of a group the outer selection did not pick, so group
A's inner cursor is independent of any number of selections against group B. -/
theorem C7_hierarchical_round_robin :
    (∀ s, MultiCloudRouter.routeN (4 * s) c7r0 = (c7rep s, c7r0)) ∧
    MultiCloudRouter.routeN 4 c7r0 = ([.ok "a1", .ok "b1", .ok "a2", .ok "b1"], c7r0) ∧
    (∀ s r, (MultiCloudRouter.routeN (4 * s + r) c7r0).1 =
      c7rep s ++ (MultiCloudRouter.routeN r c7r0).1) ∧
    (∀ (α : Type) (r : MultiCloudRouter α) (g : String),
      (∀ x, (r.cloud_balancer.select "cloud" (r.providers.map Prod.fst)).1 = .ok x →
        x ≠ g) →
      alookup g ((r.route).2.inner_balancers) = alookup g r.inner_balancers) := by
  refine ⟨c7_periodN, c7_four, ?_, fun α r g hg => route_preserves_other_inner r g hg⟩
  intro s r
  rw [routeN_add, c7_periodN]

/-- C7 witness: on the fresh C7 router the outer selection picks group A, so the
independence part applies with g := "B", and group B's inner balancer is
untouched by the call. -/
theorem C7_witness :
    (∀ x, (c7r0.cloud_balancer.select "cloud" (c7r0.providers.map Prod.fst)).1 = .ok x →
      x ≠ "B") ∧
    alookup "B" ((c7r0.route).2.inner_balancers) = alookup "B" c7r0.inner_balancers := by
  have hsel : ∀ x,
      (c7r0.cloud_balancer.select "cloud" (c7r0.providers.map Prod.fst)).1 = .ok x →
      x ≠ "B" := by
    intro x hx
    have h0 : (c7r0.cloud_balancer.select "cloud" (c7r0.providers.map Prod.fst)).1 =
        .ok "A" := rfl
    rw [h0] at hx
    obtain rfl := Except.ok.inj hx
    decide
  exact ⟨hsel, C7_hierarchical_round_robin.2.2.2 String c7r0 "B" hsel⟩

/-- Dict lookup commutes with mapping every pool of the provider dict. -/
theorem alookup_map {α β : Type} (g : α → β) (k : String) :
    ∀ l : List (String × List α),
      alookup k (l.map (fun p => (p.1, p.2.map g))) =
        (alookup k l).map (fun pool => pool.map g) := by
  intro l
  induction l with
  | nil => rfl
  | cons p ps ih =>
    by_cases hk : p.1 = k
    · simp [alookup, hk]
    · simp [alookup, hk, ih]

/-- `select` only reads the length of the options list and the entry at the
cursor, so it commutes with mapping the options. -/
theorem select_map {α β : Type} (g : α → β) (b : RoundRobinBalancer) (key : String)
    (options : List α) :
    RoundRobinBalancer.select b key (options.map g) =
      (Except.map g (RoundRobinBalancer.select b key options).1,
       (RoundRobinBalancer.select b key options).2) := by
  unfold RoundRobinBalancer.select
  simp only [List.length_map, List.get?_map]
  by_cases h0 : options.length = 0
  · rw [if_pos h0, if_pos h0]
    rfl
  · rw [if_neg h0, if_neg h0]
    cases hx : options.get? (b._index key) with
    | none => rfl
    | some x => rfl

/-- The routing decision never consults the instances themselves beyond
returning one: it commutes with mapping every instance of every group. -/
theorem route_map {α β : Type} (g : α → β) (r : MultiCloudRouter α) :
    ((r.mapInstances g).route).1 = Except.map g (r.route).1 := by
  have hkeys : (r.mapInstances g).providers.map Prod.fst = r.providers.map Prod.fst := by
    show (r.providers.map (fun p => (p.1, p.2.map g))).map Prod.fst = _
    induction r.providers with
    | nil => rfl
    | cons p ps ih => simp_all
  have hcb : (r.mapInstances g).cloud_balancer = r.cloud_balancer := rfl
  have hib : (r.mapInstances g).inner_balancers = r.inner_balancers := rfl
  have hprov : (r.mapInstances g).providers =
      r.providers.map (fun p => (p.1, p.2.map g)) := rfl
  unfold MultiCloudRouter.route
  rw [hkeys, hcb, hib, hprov]
  rcases hsel : r.cloud_balancer.select "cloud" (r.providers.map Prod.fst) with ⟨res, cb2⟩
  cases res with
  | error e => rfl
  | ok cloud_name =>
    dsimp only
    cases hibk : alookup cloud_name r.inner_balancers with
    | none => rfl
    | some ib =>
      dsimp only
      rw [alookup_map]
      cases hpool : alookup cloud_name r.providers with
      | none => rfl
      | some pool =>
        dsimp only [Option.map]
        rw [select_map]

/-- With an empty provider dict, the outer selection divides by zero. -/
theorem route_empty {α : Type} (r : MultiCloudRouter α) (h : r.providers = []) :
    (r.route).1 = .error .zeroDivisionError := by
  unfold MultiCloudRouter.route
  rw [h]
  rfl

/-- C8 (amended): the hierarchical router never consults endpoint status: the
routing decision commutes with overwriting every endpoint's status flag, so a
router in which no group holds an ACTIVE endpoint still selects a group and
returns an (INACTIVE) instance instead of failing; the outer selection fails
only on an empty provider map, and then with the unhandled ZeroDivisionError
from the cursor modulo - not with NoActiveEndpoint. -/
theorem C8_route_ignores_status :
    (∀ (r : MultiCloudRouter LlmInstanceEntry) (s : LlmStatus),
      ((r.mapInstances (LlmInstanceEntry.withStatus s)).route).1 =
        Except.map (LlmInstanceEntry.withStatus s) (r.route).1) ∧
    (∀ (r : MultiCloudRouter LlmInstanceEntry), r.providers = [] →
      (r.route).1 = .error .zeroDivisionError) :=
  ⟨fun r s => route_map (LlmInstanceEntry.withStatus s) r,
   fun r h => route_empty r h⟩

/-- C8 witness: the empty-map router satisfies the hypothesis and the theorem
applies at it. -/
theorem C8_witness :
    c8empty.providers = [] ∧ (c8empty.route).1 = .error .zeroDivisionError :=
  ⟨rfl, C8_route_ignores_status.2 c8empty rfl⟩

/-- C8 counterexample: a router whose only group holds one INACTIVE endpoint -
so no group contains an ACTIVE endpoint - does not fail with NoActiveEndpoint
during the outer selection: the `route` call succeeds and returns the INACTIVE
instance. -/
theorem C8_counterexample_no_active_still_routed :
    (∀ p ∈ c8router.providers, ∀ e ∈ p.2, e.status = LlmStatus.INACTIVE) ∧
    (c8router.route).1 = .ok c8entry := by
  exact ⟨by decide, rfl⟩
